import Mathlib

/-!
# Verification of the EUROCONTROL airway database resolver

A shallow embedding of `crates/thrust/src/data/eurocontrol/database.rs` and the
data model it operates on, together with theorems settling the specification
claims about the point resolver, the route resolver, the procedure resolvers,
the DFS sub-route extraction and the seven-pass enrichment pipeline.

Modelling conventions:
* Rust `String`/`&str` values are modelled as lists of bytes (`Str := List Nat`);
  all designators occurring in the claims are ASCII, and the code compares
  strings bytewise (`eq_ignore_ascii_case` is a byte-level comparison).
* `f64` coordinates stored in reference entities are modelled as exact
  rationals (`ℚ`); the coordinate literals that flow into `ResolvedPoint::
  Coordinates` (and through its custom `PartialEq`) are modelled as `F64`,
  either a finite value (an exact rational) or NaN, because the comparison
  `(a - b).abs() < f64::EPSILON` is false whenever an operand is NaN and this
  irreflexivity is observable.  On finite dyadic inputs where the subtraction
  is exact the rational comparison is faithful.  The WGS-84 geodesic distance
  and the hybrid score are floating-point computations with no exact
  semantics; they are taken as parameters (`dist`, `score`) of the enrichment
  pipeline, which is faithful to the code for any actual value they compute.
* Rust `HashMap<String, V>` stores are modelled as association lists; hash-map
  iteration is modelled by list order (iteration order is unspecified in Rust,
  which is exactly what the determinism claims are about).
* Code that can panic is modelled in `Option`, with `none` for a panic.
-/

set_option synthInstance.maxSize 512

namespace Thrust

/-- Byte strings: the model of Rust `String` / `&str`. -/
abbrev Str := List Nat

/-- The bytes of an ASCII string literal. -/
def bytesOf (s : String) : Str := s.data.map Char.toNat

/-- ASCII whitespace bytes; models `char::is_whitespace` restricted to the
ASCII range used by the data. -/
def isWhitespaceByte (b : Nat) : Bool := b == 32 || (9 ≤ b && b ≤ 13)

/-- Models Rust `str::trim` (for ASCII input): drop leading and trailing
whitespace. -/
def trimStr (s : Str) : Str :=
  ((s.dropWhile isWhitespaceByte).reverse.dropWhile isWhitespaceByte).reverse

/-- Models `u8::to_ascii_lowercase`. -/
def asciiLower (b : Nat) : Nat := if 65 ≤ b ∧ b ≤ 90 then b + 32 else b

/-- Models `str::eq_ignore_ascii_case`: equality after ASCII lowercasing. -/
def eqIgnoreAsciiCase (a b : Str) : Bool := a.map asciiLower == b.map asciiLower

/-- Models `char::is_alphabetic` restricted to ASCII (route designators are
ASCII). -/
def isAlphabeticByte (b : Nat) : Bool := (65 ≤ b && b ≤ 90) || (97 ≤ b && b ≤ 122)

/-- Lexicographic comparison of byte strings; models the `Ord` instance of
Rust `String` used by `sort_by_key`. -/
def leStr : Str → Str → Bool
  | [], _ => true
  | _ :: _, [] => false
  | a :: as_, b :: bs => if a < b then true else if b < a then false else leStr as_ bs

/-- `aixm::airport_heliport::AirportHeliport`. -/
structure AirportHeliport where
  identifier : Str
  latitude : ℚ
  longitude : ℚ
  altitude : ℚ
  iata : Option Str
  icao : Str
  name : Str
  city : Option Str
  type_ : Str
deriving DecidableEq

/-- Modelled from the spec: the `navaid` module is declared but its source is
not present; §3 of the spec gives its fields (identifier, optional name, type,
latitude, longitude). -/
structure Navaid where
  identifier : Str
  name : Option Str
  type_ : Str
  latitude : ℚ
  longitude : ℚ
deriving DecidableEq

/-- `aixm::designated_point::DesignatedPoint`. -/
structure DesignatedPoint where
  identifier : Str
  latitude : ℚ
  longitude : ℚ
  designator : Str
  name : Option Str
  type_ : Str
deriving DecidableEq

/-- `aixm::route_segment::PointReference`. -/
inductive PointReference where
  | DesignatedPoint (id : Str)
  | Navaid (id : Str)
  | AirportHeliport (id : Str)
  | None
deriving DecidableEq

/-- `PointReference::name`. -/
def PointReference.name : PointReference → Str
  | .DesignatedPoint id => id
  | .Navaid id => id
  | .AirportHeliport id => id
  | .None => []

/-- `PointReference::is_airport_heliport`. -/
def PointReference.isAirportHeliport : PointReference → Bool
  | .AirportHeliport _ => true
  | _ => false

/-- `aixm::route_segment::RouteSegment`. -/
structure RouteSegment where
  identifier : Str
  route_formed : Option Str
  start : PointReference
  end_ : PointReference
deriving DecidableEq

/-- `aixm::route::Route`.  The source field `prefix` is called `pfx` here. -/
structure Route where
  identifier : Str
  pfx : Option Str
  second_letter : Option Str
  number : Option Str
  multiple_identifier : Option Str
deriving DecidableEq

/-- Modelled from the spec: the `arrival_leg` module source is not present;
§3 gives identifier, optional procedure reference (`arrival`), start and end
point references. -/
structure ArrivalLeg where
  identifier : Str
  arrival : Option Str
  start : PointReference
  end_ : PointReference
deriving DecidableEq

/-- `aixm::departure_leg::DepartureLeg`. -/
structure DepartureLeg where
  identifier : Str
  departure : Option Str
  start : PointReference
  end_ : PointReference
deriving DecidableEq

/-- `aixm::standard_instrument_arrival::StandardInstrumentArrival`. -/
structure StandardInstrumentArrival where
  identifier : Str
  designator : Str
  airport_heliport : Option Str
  instruction : Option Str
  connecting_points : List PointReference
deriving DecidableEq

/-- `aixm::standard_instrument_departure::StandardInstrumentDeparture`. -/
structure StandardInstrumentDeparture where
  identifier : Str
  designator : Str
  airport_heliport : Option Str
  instruction : Option Str
  connecting_points : List PointReference
deriving DecidableEq

/-- The `AirwayDatabase` store; each `HashMap<String, V>` is an association
list whose order models the (unspecified) hash-map iteration order. -/
structure AirwayDatabase where
  airports : List (Str × AirportHeliport)
  navaids : List (Str × Navaid)
  designated_points : List (Str × DesignatedPoint)
  route_segments : List (Str × RouteSegment)
  routes : List (Str × Route)
  arrival_legs : List (Str × ArrivalLeg)
  departure_legs : List (Str × DepartureLeg)
  standard_instrument_arrivals : List (Str × StandardInstrumentArrival)
  standard_instrument_departures : List (Str × StandardInstrumentDeparture)
deriving DecidableEq

/-- `HashMap::get`: first entry with a matching key. -/
def mapGet {α : Type} (m : List (Str × α)) (id : Str) : Option α :=
  (m.find? (fun kv => kv.1 == id)).map Prod.snd

/-- `HashMap::values` iteration. -/
def mapValues {α : Type} (m : List (Str × α)) : List α := m.map Prod.snd

/-- An `f64` as consumed by the coordinate comparison: a finite value
(modelled as an exact rational) or NaN. -/
inductive F64 where
  | finite (val : ℚ)
  | nan
deriving DecidableEq

/-- NaN test. -/
def F64.isNaN : F64 → Bool
  | .nan => true
  | .finite _ => false

/-- `ResolvedPoint`. -/
inductive ResolvedPoint where
  | AirportHeliport (a : AirportHeliport)
  | Navaid (n : Navaid)
  | DesignatedPoint (d : DesignatedPoint)
  | Coordinates (latitude longitude : F64)
  | None
deriving DecidableEq

/-- `f64::EPSILON` is 2^-52, exactly representable as a rational. -/
def f64Epsilon : ℚ := 1 / 2 ^ 52

/-- `(a - b).abs() < f64::EPSILON` on two `f64`s: on finite values the exact
comparison; false whenever an operand is NaN (NaN propagates through the
subtraction and absolute value, and every `<` with NaN is false). -/
def f64EpsEq : F64 → F64 → Bool
  | .finite a, .finite b => decide (|a - b| < f64Epsilon)
  | _, _ => false

/-- The custom `PartialEq for ResolvedPoint`: identifier equality for the three
typed variants, epsilon-tolerant comparison of both coordinates for
`Coordinates`, discriminant equality for `None`. -/
def rpEq : ResolvedPoint → ResolvedPoint → Bool
  | .AirportHeliport a, .AirportHeliport b => a.identifier == b.identifier
  | .Navaid a, .Navaid b => a.identifier == b.identifier
  | .DesignatedPoint a, .DesignatedPoint b => a.identifier == b.identifier
  | .Coordinates la lo, .Coordinates lb lob => f64EpsEq la lb && f64EpsEq lo lob
  | .None, .None => true
  | _, _ => false

/-- A point with a NaN coordinate component: the only points on which the
custom equality is irreflexive. -/
def ResolvedPoint.hasNaN : ResolvedPoint → Bool
  | .Coordinates la lo => la.isNaN || lo.isNaN
  | _ => false

/-- `ResolvedPoint::None` test (`matches!(p, ResolvedPoint::None)`). -/
def ResolvedPoint.isNone : ResolvedPoint → Bool
  | .None => true
  | _ => false

/-- `ResolvedPoint::from_db`. -/
def ResolvedPoint.from_db (point : PointReference) (db : AirwayDatabase) : ResolvedPoint :=
  match point with
  | .AirportHeliport id =>
      match mapGet db.airports id with
      | some airport => .AirportHeliport airport
      | none => .None
  | .Navaid id =>
      match mapGet db.navaids id with
      | some navaid => .Navaid navaid
      | none => .None
  | .DesignatedPoint id =>
      match mapGet db.designated_points id with
      | some dp => .DesignatedPoint dp
      | none => .None
  | .None => .None

/-- The navaid filter of `ResolvedPoint::lookup`:
`n.name.as_deref().is_some_and(|n| n.trim().eq_ignore_ascii_case(name))`. -/
def navaidNameMatches (name : Str) (n : Navaid) : Bool :=
  match n.name with
  | some nName => eqIgnoreAsciiCase (trimStr nName) name
  | none => false

/-- The designated-point filter of `ResolvedPoint::lookup`:
`dp.designator.trim().eq_ignore_ascii_case(name)`. -/
def designatorMatches (name : Str) (dp : DesignatedPoint) : Bool :=
  eqIgnoreAsciiCase (trimStr dp.designator) name

/-- `ResolvedPoint::lookup`: navaids first (by `name`), then designated points
(by `designator`); names are trimmed before the case-insensitive comparison. -/
def ResolvedPoint.lookup (name : Str) (db : AirwayDatabase) : List ResolvedPoint :=
  let candidates := (mapValues db.navaids).filter (navaidNameMatches name)
  if ¬ candidates.isEmpty then
    candidates.map ResolvedPoint.Navaid
  else
    let candidates := (mapValues db.designated_points).filter (designatorMatches name)
    if ¬ candidates.isEmpty then
      candidates.map ResolvedPoint.DesignatedPoint
    else
      []

/-- Modelled from the spec: the `field15` module source is not present; an
altitude constraint is an opaque token-carried value (§6). -/
structure Altitude where
  raw : Str
deriving DecidableEq

/-- Modelled from the spec: an opaque speed constraint (§6). -/
structure Speed where
  raw : Str
deriving DecidableEq

/-- `ResolvedRouteSegment`. -/
structure ResolvedRouteSegment where
  start : ResolvedPoint
  end_ : ResolvedPoint
  name : Option Str
  altitude : Option Altitude
  speed : Option Speed
deriving DecidableEq

/-- `ResolvedRoute`. -/
structure ResolvedRoute where
  segments : List ResolvedRouteSegment
  name : Str
deriving DecidableEq

/-- Placeholder segment used for (always in-bounds) list indexing. -/
def dummySeg : ResolvedRouteSegment :=
  { start := .None, end_ := .None, name := none, altitude := none, speed := none }

/-- `ResolvedRouteSegment::from_db`. -/
def ResolvedRouteSegment.from_db (segment : RouteSegment) (db : AirwayDatabase) :
    ResolvedRouteSegment :=
  { start := ResolvedPoint.from_db segment.start db
    end_ := ResolvedPoint.from_db segment.end_ db
    name := none
    altitude := none
    speed := none }

/-- `ResolvedRoute::from_db`: all route segments owned by the route, in
iteration order (not sorted), named `prefix ∥ second_letter ∥ number`. -/
def ResolvedRoute.from_db (route : Route) (db : AirwayDatabase) : ResolvedRoute :=
  { segments := ((mapValues db.route_segments).filter
      (fun segment => segment.route_formed == some route.identifier)).map
      (fun segment => ResolvedRouteSegment.from_db segment db)
    name := route.pfx.getD [] ++ route.second_letter.getD [] ++ route.number.getD [] }

/-- `VALID_ROUTE_PREFIXES`: UN UM UL UT UZ UY UP UA UB UG UH UJ UQ UR UV UW
L A B G H J Q R T V W Y Z M N P (as byte strings). -/
def VALID_ROUTE_PREFIXES : List Str :=
  [[85, 78], [85, 77], [85, 76], [85, 84], [85, 90], [85, 89], [85, 80], [85, 65],
   [85, 66], [85, 71], [85, 72], [85, 74], [85, 81], [85, 82], [85, 86], [85, 87],
   [76], [65], [66], [71], [72], [74], [81], [82], [84], [86], [87], [89], [90],
   [77], [78], [80]]

/-- The designator decomposition inlined in `ResolvedRoute::lookup`: split a
trailing alphabetic character off as the multiple identifier, then split the
rest into prefix / second letter / number.  Returns `none` for the empty
designator, on which the source's `chars().last().unwrap()` would panic
(unreachable under the prefix guard of `lookup`). -/
def decomposeDesignator (name : Str) : Option (Option Str × Str × Str × Option Str) :=
  match name.getLast? with
  | none => none
  | some last =>
    let parts := if isAlphabeticByte last then (name.dropLast, some [last]) else (name, none)
    let name := parts.1
    let core :=
      if name.head? == some 85 ∧ 3 ≤ name.length then
        (some [85], [name.getD 1 0], name.drop 2)
      else if 2 ≤ name.length then
        (none, name.take 1, name.drop 1)
      else
        (none, ([] : Str), ([] : Str))
    some (core.1, core.2.1, core.2.2, parts.2)

/-- `ResolvedRoute::lookup`: reject unless the name starts with a recognized
airway prefix, decompose, and match all four decomposed fields exactly. -/
def ResolvedRoute.lookup (name : Str) (db : AirwayDatabase) : List ResolvedRoute :=
  if VALID_ROUTE_PREFIXES.any (fun p => p.isPrefixOf name) then
    match decomposeDesignator name with
    | none => []
    | some (pfx, second_letter, number, multiple) =>
        (((mapValues db.routes).filter (fun route =>
            route.pfx == pfx && route.second_letter == some second_letter
              && route.number == some number
              && route.multiple_identifier == multiple)).map
          (fun route => ResolvedRoute.from_db route db))
  else []

/-- `ResolvedRoute::contains`: some segment endpoint equals the point (custom
`PartialEq`). -/
def ResolvedRoute.contains (r : ResolvedRoute) (point : ResolvedPoint) : Bool :=
  r.segments.any (fun segment => rpEq segment.start point || rpEq segment.end_ point)

/-- The adjacency built by `between`: for each segment, a forward edge from its
start and a backward edge from its end, in segment order (forward first). -/
def neighborsOf (segs : List ResolvedRouteSegment) (p : ResolvedPoint) :
    List (ResolvedPoint × Nat × Bool) :=
  (List.range segs.length).flatMap (fun i =>
    let seg := segs.getD i dummySeg
    (if rpEq seg.start p then [(seg.end_, i, true)] else []) ++
    (if rpEq seg.end_ p then [(seg.start, i, false)] else []))

/-- `ResolvedRoute::dfs_helper`: depth-first search over the segment graph with
per-segment-index visitation.  The Rust recursion always terminates because
`visited` grows at each level; the fuel `segs.length + 1` passed by `between`
bounds the recursion depth, so the `none`-on-zero-fuel branch is dead. -/
def dfsHelper (segs : List ResolvedRouteSegment) :
    Nat → ResolvedPoint → ResolvedPoint → List (Nat × Bool) → List Nat →
    Option (List (Nat × Bool))
  | 0, _, _, _, _ => none
  | fuel + 1, current, target, path, visited =>
    if rpEq current target then some path
    else
      (neighborsOf segs current).findSome? (fun nb =>
        if visited.contains nb.2.1 then none
        else dfsHelper segs fuel nb.1 target (path ++ [(nb.2.1, nb.2.2)]) (nb.2.1 :: visited))

/-- The reversed copy produced by `build_route_from_path` for a backward
step: start and end swapped, name overwritten by the route's name,
altitude/speed carried through. -/
def revSeg (name : Str) (segment : ResolvedRouteSegment) : ResolvedRouteSegment :=
  { start := segment.end_
    end_ := segment.start
    name := some name
    altitude := segment.altitude
    speed := segment.speed }

/-- The segment emitted for one `(segment_index, is_forward)` step of
`build_route_from_path`: the original segment cloned, or reversed with the
route's name substituted. -/
def stepSegment (r : ResolvedRoute) (e : Nat × Bool) : ResolvedRouteSegment :=
  if e.2 then r.segments.getD e.1 dummySeg
  else revSeg r.name (r.segments.getD e.1 dummySeg)

/-- `ResolvedRoute::build_route_from_path`. -/
def build_route_from_path (r : ResolvedRoute) (path : List (Nat × Bool)) : ResolvedRoute :=
  { segments := path.map (stepSegment r), name := r.name }

/-- `ResolvedRoute::between`. -/
def ResolvedRoute.between (r : ResolvedRoute) (start target : ResolvedPoint) :
    Option ResolvedRoute :=
  match dfsHelper r.segments (r.segments.length + 1) start target [] [] with
  | some path => some (build_route_from_path r path)
  | none => none

/-- Stable insertion of an element into a sorted list. -/
def insertLe {α : Type} (le : α → α → Bool) (a : α) : List α → List α
  | [] => [a]
  | b :: t => if le a b then a :: b :: t else b :: insertLe le a t

/-- Stable insertion sort; models Rust's stable `sort_by_key` (the spec, §9,
allows any stable sort by a deterministic key). -/
def sortLe {α : Type} (le : α → α → Bool) : List α → List α
  | [] => []
  | a :: t => insertLe le a (sortLe le t)

/-- `Vec::dedup` with the given equality: remove elements equal to the last
kept element. -/
def dedupConsecGo {α : Type} (eqv : α → α → Bool) (a : α) : List α → List α
  | [] => []
  | b :: t => if eqv a b then dedupConsecGo eqv a t else b :: dedupConsecGo eqv b t

/-- `Vec::dedup` (consecutive duplicate removal). -/
def dedupConsec {α : Type} (eqv : α → α → Bool) : List α → List α
  | [] => []
  | a :: t => a :: dedupConsecGo eqv a t

/-- Decimal digit bytes of a natural number. -/
def natDigits (n : Nat) : Str := (Nat.toDigits 10 n).map Char.toNat

/-- Decimal rendering of an integer. -/
def intStr (i : Int) : Str :=
  if i < 0 then 45 :: natDigits i.natAbs else natDigits i.natAbs

/-- `⌊x + 1/2⌋` computed on numerator and denominator; models the rounding of
`{:.3}` float formatting. -/
def ratRound3 (x : ℚ) : Int := Int.fdiv (2 * (x.num * 1000) + x.den) (2 * x.den)

/-- Rendering of a coordinate with three decimals, modelling `{:.3}`. -/
def fmt3 (x : ℚ) : Str :=
  let m := ratRound3 x
  let a := m.natAbs
  (if m < 0 then [45] else []) ++ natDigits (a / 1000) ++ [46] ++
    (if a % 1000 < 10 then [48, 48] else if a % 1000 < 100 then [48] else []) ++
    natDigits (a % 1000)

/-- Injective rendering of a rational, modelling the (shortest-roundtrip,
value-injective) `Display` of `f64`; the spec (§9) allows any stable rendering
that is a pure function of the value. -/
def ratStr (x : ℚ) : Str := intStr x.num ++ [47] ++ natDigits x.den

/-- Rendering of a coordinate literal, modelling the `Display` of `f64`
(`NaN` prints as `NaN`). -/
def f64Str : F64 → Str
  | .finite q => ratStr q
  | .nan => bytesOf "NaN"

/-- The `Display` rendering of `ResolvedPoint` (`format!("{p}")`), used as a
sort key.  The source unwraps `navaid.name` and would panic on an unnamed
navaid; the model renders an empty name there. -/
def displayKey (p : ResolvedPoint) : Str :=
  match p with
  | .AirportHeliport a =>
      bytesOf "AirportHeliport(" ++ a.icao ++ bytesOf ": " ++ fmt3 a.latitude ++
        bytesOf "," ++ fmt3 a.longitude ++ bytesOf ")"
  | .Navaid n =>
      bytesOf "Navaid(" ++ n.name.getD [] ++ bytesOf ": " ++ fmt3 n.latitude ++
        bytesOf "," ++ fmt3 n.longitude ++ bytesOf ")"
  | .DesignatedPoint d =>
      bytesOf "DesignatedPoint(" ++ d.designator ++ bytesOf ": " ++ fmt3 d.latitude ++
        bytesOf ", " ++ fmt3 d.longitude ++ bytesOf ")"
  | .Coordinates la lo =>
      bytesOf "Coordinates(lat: " ++ f64Str la ++ bytesOf ", lon: " ++ f64Str lo ++ bytesOf ")"
  | .None => bytesOf "None"

/-- The derived `Debug` rendering of `ResolvedPoint` (`format!("{p:?}")`),
used as a sort key; modelled as variant name plus the fields that identify the
value (a deterministic injective key, as licensed by §9 of the spec). -/
def debugKey (p : ResolvedPoint) : Str :=
  match p with
  | .AirportHeliport a => bytesOf "AirportHeliport(" ++ a.identifier ++ bytesOf ")"
  | .Navaid n => bytesOf "Navaid(" ++ n.identifier ++ bytesOf ")"
  | .DesignatedPoint d => bytesOf "DesignatedPoint(" ++ d.identifier ++ bytesOf ")"
  | .Coordinates la lo =>
      bytesOf "Coordinates(latitude: " ++ f64Str la ++ bytesOf ", longitude: " ++
        f64Str lo ++ bytesOf ")"
  | .None => bytesOf "None"

/-- `HashMap<String, usize>::entry(k).and_modify(|v| *v += 1).or_insert(1)`. -/
def bumpEntry (m : List (Str × Nat)) (k : Str) : List (Str × Nat) :=
  match m with
  | [] => [(k, 1)]
  | (k', v) :: rest => if k' = k then (k', v + 1) :: rest else (k', v) :: bumpEntry rest k

/-- `HashMap::insert` (overwrite). -/
def putEntry {α : Type} (m : List (Str × α)) (k : Str) (v : α) : List (Str × α) :=
  match m with
  | [] => [(k, v)]
  | (k', v') :: rest => if k' = k then (k, v) :: rest else (k', v') :: putEntry rest k v

/-- `*map.get(&k).unwrap_or(&0)`. -/
def countGet (m : List (Str × Nat)) (k : Str) : Nat :=
  match m with
  | [] => 0
  | kv :: rest => if kv.1 = k then kv.2 else countGet rest k

/-- The legs selected by `procedure_exit_points` / `procedure_entry_points`:
departure or arrival legs whose owning procedure is one of `procedure_ids`. -/
def legsFor (db : AirwayDatabase) (procedure_ids : List Str) (is_departure : Bool) :
    List (PointReference × PointReference) :=
  if is_departure then
    ((mapValues db.departure_legs).filter (fun leg =>
      match leg.departure with
      | some id => procedure_ids.contains id
      | none => false)).map (fun leg => (leg.start, leg.end_))
  else
    ((mapValues db.arrival_legs).filter (fun leg =>
      match leg.arrival with
      | some id => procedure_ids.contains id
      | none => false)).map (fun leg => (leg.start, leg.end_))

/-- The state of the degree-counting loop: `(indegree, outdegree, refs)`. -/
abbrev DegState := List (Str × Nat) × List (Str × Nat) × List (Str × PointReference)

/-- One iteration of the degree-counting loop shared by the two procedure
point extractors.  The loop body touches each of the three disjoint maps at
most once per endpoint (start: outdegree and refs; end: indegree and refs),
so the three components are written independently, refs in start-then-end
order as in the source. -/
def degStep (st : DegState) (leg : PointReference × PointReference) : DegState :=
  let s := leg.1.name
  let e := leg.2.name
  ( if e ≠ [] then bumpEntry st.1 e else st.1,
    if s ≠ [] then bumpEntry st.2.1 s else st.2.1,
    let refs := if s ≠ [] then putEntry st.2.2 s leg.1 else st.2.2
    if e ≠ [] then putEntry refs e leg.2 else refs )

/-- `AirwayDatabase::procedure_exit_points`: nodes with out-degree 0 and
in-degree > 0, airport references excluded. -/
def procedure_exit_points (db : AirwayDatabase) (procedure_ids : List Str)
    (is_departure : Bool) : List PointReference :=
  let legs := legsFor db procedure_ids is_departure
  let st := legs.foldl degStep ([], [], [])
  st.2.2.filterMap (fun kv =>
    if kv.2.isAirportHeliport then none
    else
      let in_d := countGet st.1 kv.1
      let out_d := countGet st.2.1 kv.1
      if out_d = 0 ∧ 0 < in_d then some kv.2 else none)

/-- `AirwayDatabase::procedure_entry_points`: nodes with in-degree 0 and
out-degree > 0, airport references excluded. -/
def procedure_entry_points (db : AirwayDatabase) (procedure_ids : List Str)
    (is_departure : Bool) : List PointReference :=
  let legs := legsFor db procedure_ids is_departure
  let st := legs.foldl degStep ([], [], [])
  st.2.2.filterMap (fun kv =>
    if kv.2.isAirportHeliport then none
    else
      let in_d := countGet st.1 kv.1
      let out_d := countGet st.2.1 kv.1
      if in_d = 0 ∧ 0 < out_d then some kv.2 else none)

/-- The final sort-and-dedup of the procedure point resolvers:
`points.sort_by_key(|p| format!("{p:?}")); points.dedup()`. -/
def sortDedupPoints (points : List ResolvedPoint) : List ResolvedPoint :=
  dedupConsec rpEq (sortLe (fun p q => leStr (debugKey p) (debugKey q)) points)

/-- `AirwayDatabase::resolve_star_points`. -/
def resolve_star_points (db : AirwayDatabase) (name : Str) : List ResolvedPoint :=
  let matching := (mapValues db.standard_instrument_arrivals).filter
    (fun star => eqIgnoreAsciiCase (trimStr star.designator) name)
  let star_ids := matching.map (fun star => star.identifier)
  let fallback_points := matching.flatMap (fun star => star.connecting_points)
  let entry_points := procedure_entry_points db star_ids false
  let points_to_resolve := if entry_points.isEmpty then fallback_points else entry_points
  sortDedupPoints ((points_to_resolve.map (fun p => ResolvedPoint.from_db p db)).filter
    (fun p => ¬ p.isNone))

/-- `AirwayDatabase::resolve_sid_points`. -/
def resolve_sid_points (db : AirwayDatabase) (name : Str) : List ResolvedPoint :=
  let matching := (mapValues db.standard_instrument_departures).filter
    (fun sid => eqIgnoreAsciiCase (trimStr sid.designator) name)
  let sid_ids := matching.map (fun sid => sid.identifier)
  let fallback_points := matching.flatMap (fun sid => sid.connecting_points)
  let exit_points := procedure_exit_points db sid_ids true
  let points_to_resolve := if exit_points.isEmpty then fallback_points else exit_points
  sortDedupPoints ((points_to_resolve.map (fun p => ResolvedPoint.from_db p db)).filter
    (fun p => ¬ p.isNone))

/-- The adjacency map of `order_route_segments`, keyed by resolved points
(custom `PartialEq`/`Hash`). -/
abbrev OutMap := List (ResolvedPoint × List ResolvedRouteSegment)

/-- `out_map.entry(k).or_default().push(seg)`. -/
def omPush (m : OutMap) (k : ResolvedPoint) (seg : ResolvedRouteSegment) : OutMap :=
  match m with
  | [] => [(k, [seg])]
  | (k', v) :: rest =>
      if rpEq k' k then (k', v ++ [seg]) :: rest else (k', v) :: omPush rest k seg

/-- `out_map.get(&k)`. -/
def omGet (m : OutMap) (k : ResolvedPoint) : Option (List ResolvedRouteSegment) :=
  (m.find? (fun kv => rpEq kv.1 k)).map Prod.snd

/-- Replace the edge list stored at key `k`. -/
def omSet (m : OutMap) (k : ResolvedPoint) (v : List ResolvedRouteSegment) : OutMap :=
  match m with
  | [] => []
  | (k', v') :: rest => if rpEq k' k then (k', v) :: rest else (k', v') :: omSet rest k v

/-- `indegree.entry(k).or_insert(0)`. -/
def pdegInit (m : List (ResolvedPoint × Nat)) (k : ResolvedPoint) :
    List (ResolvedPoint × Nat) :=
  match m with
  | [] => [(k, 0)]
  | (k', v) :: rest => if rpEq k' k then (k', v) :: rest else (k', v) :: pdegInit rest k

/-- `indegree.entry(k).and_modify(|v| *v += 1).or_insert(1)`. -/
def pdegBump (m : List (ResolvedPoint × Nat)) (k : ResolvedPoint) :
    List (ResolvedPoint × Nat) :=
  match m with
  | [] => [(k, 1)]
  | (k', v) :: rest => if rpEq k' k then (k', v + 1) :: rest else (k', v) :: pdegBump rest k

/-- The `walk_from` closure of `order_route_segments`: repeatedly pop the
first remaining outgoing edge of the current point.  Each step consumes one
edge, so the fuel `total number of segments + 1` is never exhausted. -/
def walkFrom (fuel : Nat) (current : ResolvedPoint) (out_map : OutMap)
    (ordered : List ResolvedRouteSegment) : OutMap × List ResolvedRouteSegment :=
  match fuel with
  | 0 => (out_map, ordered)
  | fuel + 1 =>
    match omGet out_map current with
    | some (segment :: rest) =>
        walkFrom fuel segment.end_ (omSet out_map current rest) (ordered ++ [segment])
    | _ => (out_map, ordered)

/-- The final loop of `order_route_segments`: while some key still has
unconsumed outgoing edges, walk from the alphabetically first such key.  Each
iteration consumes at least one edge, so the same fuel bound applies. -/
def drainLoop (fuel : Nat) (out_map : OutMap) (ordered : List ResolvedRouteSegment) :
    List ResolvedRouteSegment :=
  match fuel with
  | 0 => ordered
  | fuel + 1 =>
    let keys := (out_map.filter (fun kv => ¬ kv.2.isEmpty)).map Prod.fst
    if keys.isEmpty then ordered
    else
      let keys := sortLe (fun p q => leStr (displayKey p) (displayKey q)) keys
      match keys with
      | [] => ordered
      | k :: _ =>
          let st := walkFrom (fuel + 1) k out_map ordered
          drainLoop fuel st.1 st.2

/-- `order_route_segments`. -/
def order_route_segments (segments : List ResolvedRouteSegment) :
    List ResolvedRouteSegment :=
  let st := segments.foldl
    (fun (st : OutMap × List (ResolvedPoint × Nat)) segment =>
      (omPush st.1 segment.start segment,
       pdegBump (pdegInit st.2 segment.start) segment.end_))
    ([], [])
  let out_map := st.1.map (fun kv =>
    (kv.1, sortLe (fun (a b : ResolvedRouteSegment) =>
      leStr (displayKey a.end_) (displayKey b.end_)) kv.2))
  let starts := sortLe (fun p q => leStr (displayKey p) (displayKey q))
    ((st.2.filter (fun kv => kv.2 == 0)).map Prod.fst)
  let fuel := segments.length + 1
  let walked := starts.foldl (fun (acc : OutMap × List ResolvedRouteSegment) s =>
    walkFrom fuel s acc.1 acc.2) (out_map, [])
  drainLoop fuel walked.1 walked.2

/-- `AirwayDatabase::resolve_star_routes`. -/
def resolve_star_routes (db : AirwayDatabase) (name : Str) : List ResolvedRoute :=
  ((mapValues db.standard_instrument_arrivals).filter
    (fun star => eqIgnoreAsciiCase (trimStr star.designator) name)).map (fun star =>
      let segments := ((mapValues db.arrival_legs).filter
        (fun leg => leg.arrival == some star.identifier)).filterMap (fun leg =>
          let s := ResolvedPoint.from_db leg.start db
          let e := ResolvedPoint.from_db leg.end_ db
          if s.isNone || e.isNone then none
          else some { start := s, end_ := e, name := some star.designator,
                      altitude := none, speed := none })
      { segments := order_route_segments segments, name := star.designator })

/-- `AirwayDatabase::resolve_sid_routes`. -/
def resolve_sid_routes (db : AirwayDatabase) (name : Str) : List ResolvedRoute :=
  ((mapValues db.standard_instrument_departures).filter
    (fun sid => eqIgnoreAsciiCase (trimStr sid.designator) name)).map (fun sid =>
      let segments := ((mapValues db.departure_legs).filter
        (fun leg => leg.departure == some sid.identifier)).filterMap (fun leg =>
          let s := ResolvedPoint.from_db leg.start db
          let e := ResolvedPoint.from_db leg.end_ db
          if s.isNone || e.isNone then none
          else some { start := s, end_ := e, name := some sid.designator,
                      altitude := none, speed := none })
      { segments := order_route_segments segments, name := sid.designator })

/-- Modelled from the spec: `field15::Modifier` (altitude and/or speed; §6). -/
structure Modifier where
  speed : Option Speed
  altitude : Option Altitude
deriving DecidableEq

/-- Modelled from the spec: `field15::Point` (§6); the coordinate literals
are `f64` values. -/
inductive F15Point where
  | Waypoint (name : Str)
  | Coordinates (lat lon : F64)
deriving DecidableEq

/-- Modelled from the spec: `field15::Connector` (§6). -/
inductive Connector where
  | Airway (name : Str)
  | Sid (name : Str)
  | Star (name : Str)
  | Direct
  | Nat (raw : Str)
  | Pts (raw : Str)
deriving DecidableEq

/-- Modelled from the spec: `field15::Field15Element` (§6); `Other` stands for
the additional element kinds that the enrichment's catch-all arm ignores. -/
inductive Field15Element where
  | Modifier (m : Modifier)
  | Point (p : F15Point)
  | Connector (c : Connector)
  | Other
deriving DecidableEq

/-- `EnrichedCandidates`. -/
inductive EnrichedCandidates where
  | Point (points : List ResolvedPoint) (altitude : Option Altitude) (speed : Option Speed)
  | PointCoords (pt : ResolvedPoint) (altitude : Option Altitude) (speed : Option Speed)
  | Airway (routes : List ResolvedRoute) (name : Str) (altitude : Option Altitude)
      (speed : Option Speed)
  | Direct
deriving DecidableEq

/-- The candidate-construction loop of `enrich_route`: modifiers update the
sticky altitude/speed state; points, coordinates and connectors produce
candidates; unknown connectors downgrade to `Direct`; other tokens are
ignored. -/
def resolveCandidates (db : AirwayDatabase) :
    Option Altitude → Option Speed → List Field15Element → List EnrichedCandidates
  | _, _, [] => []
  | altitude, speed, element :: rest =>
    match element with
    | .Modifier m => resolveCandidates db m.altitude m.speed rest
    | .Point (.Waypoint name) =>
        .Point (ResolvedPoint.lookup name db) altitude speed ::
          resolveCandidates db altitude speed rest
    | .Point (.Coordinates lat lon) =>
        .PointCoords (.Coordinates lat lon) altitude speed ::
          resolveCandidates db altitude speed rest
    | .Connector (.Airway name) =>
        (if (ResolvedRoute.lookup name db).isEmpty then .Direct
         else .Airway (ResolvedRoute.lookup name db) name altitude speed) ::
          resolveCandidates db altitude speed rest
    | .Connector (.Sid name) =>
        (if (resolve_sid_routes db name).isEmpty then .Direct
         else .Airway (resolve_sid_routes db name) name altitude speed) ::
          resolveCandidates db altitude speed rest
    | .Connector (.Star name) =>
        (if (resolve_star_routes db name).isEmpty then .Direct
         else .Airway (resolve_star_routes db name) name altitude speed) ::
          resolveCandidates db altitude speed rest
    | .Connector .Direct => .Direct :: resolveCandidates db altitude speed rest
    | .Connector (.Nat _) => .Direct :: resolveCandidates db altitude speed rest
    | .Connector (.Pts _) => .Direct :: resolveCandidates db altitude speed rest
    | .Other => resolveCandidates db altitude speed rest

/-- Pass 1 at one index: an `Airway` strictly inside the list keeps only the
candidate routes containing some candidate point of a `Point` neighbour.
Pass 1 only rewrites `Airway` entries and only reads `Point` entries, so
reading neighbours from the original list is equivalent to the in-place loop. -/
def airwayFilterAt (resolved : List EnrichedCandidates) (i : Nat)
    (c : EnrichedCandidates) : EnrichedCandidates :=
  if i = 0 ∨ i + 1 = resolved.length then c
  else
    match c with
    | .Airway routes name altitude speed =>
      let routes := match resolved.getD (i - 1) .Direct with
        | .Point points _ _ => routes.filter (fun r => points.any (fun p => r.contains p))
        | _ => routes
      let routes := match resolved.getD (i + 1) .Direct with
        | .Point points _ _ => routes.filter (fun r => points.any (fun p => r.contains p))
        | _ => routes
      .Airway routes name altitude speed
    | other => other

/-- Pass 1 (`for i in 1..resolved.len() - 1`). -/
def pass1 (resolved : List EnrichedCandidates) : List EnrichedCandidates :=
  resolved.mapIdx (fun i c => airwayFilterAt resolved i c)

/-- Pass 2: empty `Airway` candidates collapse to `Direct`. -/
def pass2 (resolved : List EnrichedCandidates) : List EnrichedCandidates :=
  resolved.map (fun c =>
    match c with
    | .Airway routes _ _ _ => if routes.isEmpty then .Direct else c
    | _ => c)

/-- Pass 3 at one index: a `Point` keeps only the candidates lying on some
candidate route of an `Airway` neighbour.  Pass 3 only rewrites `Point`
entries and only reads `Airway` entries. -/
def pointFilterAt (resolved : List EnrichedCandidates) (i : Nat)
    (c : EnrichedCandidates) : EnrichedCandidates :=
  match c with
  | .Point points altitude speed =>
    let points :=
      if i = 0 then points
      else match resolved.getD (i - 1) .Direct with
        | .Airway routes _ _ _ => points.filter (fun p => routes.any (fun r => r.contains p))
        | _ => points
    let points := match resolved.getD (i + 1) .Direct with
      | .Airway routes _ _ _ => points.filter (fun p => routes.any (fun r => r.contains p))
      | _ => points
    .Point points altitude speed
  | other => other

/-- Pass 3 (`for i in 0..resolved.len()`). -/
def pass3 (resolved : List EnrichedCandidates) : List EnrichedCandidates :=
  resolved.mapIdx (fun i c => pointFilterAt resolved i c)

/-- Pass 4 at one index: an `Airway` sandwiched between two `Point`
neighbours replaces each candidate route by `between(first-before,
first-after)` when that returns a route. -/
def airwayTrimAt (resolved : List EnrichedCandidates) (i : Nat)
    (c : EnrichedCandidates) : EnrichedCandidates :=
  if i = 0 ∨ i + 1 = resolved.length then c
  else
    match c with
    | .Airway routes name altitude speed =>
      match resolved.getD (i - 1) .Direct, resolved.getD (i + 1) .Direct with
      | .Point before _ _, .Point after _ _ =>
        match before.head?, after.head? with
        | some b, some a =>
            .Airway (routes.map (fun r => (r.between b a).getD r)) name altitude speed
        | _, _ => c
      | _, _ => c
    | other => other

/-- Pass 4 (`for i in 1..resolved.len() - 1`). -/
def pass4 (resolved : List EnrichedCandidates) : List EnrichedCandidates :=
  resolved.mapIdx (fun i c => airwayTrimAt resolved i c)

/-- Pass 5: an `Airway` all of whose candidate routes have empty segment
lists collapses to `Direct`. -/
def pass5 (resolved : List EnrichedCandidates) : List EnrichedCandidates :=
  resolved.map (fun c =>
    match c with
    | .Airway routes _ _ _ =>
        if routes.all (fun r => r.segments.isEmpty) then .Direct else c
    | _ => c)

/-- The argmin loop of pass 6 (`best_idx` starts at 0, `best` at `f64::
INFINITY`, strict improvement). -/
def argminIdx {α : Type} (f : α → ℚ) (l : List α) : Nat :=
  (l.foldl (fun (st : Nat × Nat × Option ℚ) x =>
    match st.2.2 with
    | none => (st.2.1, st.2.1 + 1, some (f x))
    | some b => if f x < b then (st.2.1, st.2.1 + 1, some (f x))
                else (st.1, st.2.1 + 1, some b)) (0, 0, none)).1

/-- The `next_definitive` scan of pass 6: the first `Point` with a singleton
candidate list, or the first `PointCoords`, at or after the current index. -/
def nextDefinitive : List EnrichedCandidates → Option ResolvedPoint
  | [] => none
  | .Point points _ _ :: rest =>
      match points with
      | [p] => some p
      | _ => nextDefinitive rest
  | .PointCoords p _ _ :: _ => some p
  | _ :: rest => nextDefinitive rest

/-- The tie-break of pass 6 given the two anchors: no `last_known` leaves the
candidates unchanged; only `last_known` picks the distance-minimizing
candidate; both anchors pick the hybrid-score-minimizing candidate. -/
def disambiguate (dist : ResolvedPoint → ResolvedPoint → ℚ)
    (score : ResolvedPoint → ResolvedPoint → ResolvedPoint → ℚ)
    (lastKnown : Option ResolvedPoint) (nextDef : Option ResolvedPoint)
    (points : List ResolvedPoint) : List ResolvedPoint :=
  match lastKnown, nextDef with
  | none, _ => points
  | some a, none => [points.getD (argminIdx (fun c => dist a c) points) .None]
  | some a, some b => [points.getD (argminIdx (fun c => score a b c) points) .None]

/-- Pass 6 as a fold threading `last_known`: multi-candidate `Point`s are
disambiguated; afterwards `last_known` is updated from the (possibly rewritten)
`Point`'s first candidate, or from a `PointCoords`; `Airway` and `Direct`
leave it unchanged. -/
def pass6Go (dist : ResolvedPoint → ResolvedPoint → ℚ)
    (score : ResolvedPoint → ResolvedPoint → ResolvedPoint → ℚ)
    (lastKnown : Option ResolvedPoint) :
    List EnrichedCandidates → List EnrichedCandidates
  | [] => []
  | c :: rest =>
    match c with
    | .Point points altitude speed =>
      let points' :=
        if 1 < points.length then
          disambiguate dist score lastKnown (nextDefinitive (c :: rest)) points
        else points
      let lk' := match points'.head? with
        | some p => some p
        | none => lastKnown
      .Point points' altitude speed :: pass6Go dist score lk' rest
    | .PointCoords p altitude speed =>
        .PointCoords p altitude speed :: pass6Go dist score (some p) rest
    | other => other :: pass6Go dist score lastKnown rest

/-- Pass 6. -/
def pass6 (dist : ResolvedPoint → ResolvedPoint → ℚ)
    (score : ResolvedPoint → ResolvedPoint → ResolvedPoint → ℚ)
    (resolved : List EnrichedCandidates) : List EnrichedCandidates :=
  pass6Go dist score none resolved

/-- Pass 7, threading `previous_point`.  The `Airway` arm reproduces
`route.segments.last().unwrap()`: when the first candidate route has an empty
segment list the source panics, modelled as `none`. -/
def pass7Go (previous : Option ResolvedPoint) :
    List EnrichedCandidates → Option (List ResolvedRouteSegment)
  | [] => some []
  | c :: rest =>
    match c with
    | .Point points altitude speed =>
      match points.head? with
      | none => pass7Go previous rest
      | some point =>
        match previous with
        | some prev =>
          if rpEq prev point then pass7Go previous rest
          else
            (pass7Go (some point) rest).map (fun tail =>
              { start := prev, end_ := point, name := none,
                altitude := altitude, speed := speed } :: tail)
        | none => pass7Go (some point) rest
    | .PointCoords point altitude speed =>
      match previous with
      | some prev =>
          (pass7Go (some point) rest).map (fun tail =>
            { start := prev, end_ := point, name := none,
              altitude := altitude, speed := speed } :: tail)
      | none => pass7Go (some point) rest
    | .Airway routes name altitude speed =>
      match routes.head? with
      | none => pass7Go previous rest
      | some route =>
        match route.segments.getLast? with
        | none => none
        | some lastSeg =>
            (pass7Go (some lastSeg.end_) rest).map (fun tail =>
              route.segments.map (fun segment =>
                { start := segment.start, end_ := segment.end_, name := some name,
                  altitude := altitude, speed := speed }) ++ tail)
    | .Direct => pass7Go previous rest

/-- `AirwayDatabase::enrich_route`.  The result is `none` exactly when the
source panics: with an empty candidate vector, `1..resolved.len() - 1` in
pass 1 underflows (debug builds abort; release builds wrap and
`split_at_mut(1)` is out of bounds), and in pass 7 an `Airway` whose first
candidate route has no segments hits `last().unwrap()`.  `dist` and `score`
abstract the WGS-84 geodesic distance and the hybrid score (floating-point
computations with no exact semantics). -/
def enrich_route (dist : ResolvedPoint → ResolvedPoint → ℚ)
    (score : ResolvedPoint → ResolvedPoint → ResolvedPoint → ℚ)
    (db : AirwayDatabase) (elements : List Field15Element) :
    Option (List ResolvedRouteSegment) :=
  let resolved := resolveCandidates db none none elements
  if resolved.isEmpty then none
  else
    pass7Go none (pass6 dist score (pass5 (pass4 (pass3 (pass2 (pass1 resolved))))))

/-! ## Example database instances used by witnesses and counterexamples -/

/-- A designated point `XOXO`. -/
def dpX : DesignatedPoint :=
  { identifier := bytesOf "id-x", latitude := 0, longitude := 0,
    designator := bytesOf "XOXO", name := none, type_ := bytesOf "ICAO" }

/-- A navaid named `AMB`. -/
def navP : Navaid :=
  { identifier := bytesOf "id-p", name := some (bytesOf "AMB"),
    type_ := bytesOf "VOR", latitude := 10, longitude := 0 }

/-- A second navaid also named `AMB`. -/
def navQ : Navaid :=
  { identifier := bytesOf "id-q", name := some (bytesOf "AMB"),
    type_ := bytesOf "VOR", latitude := 20, longitude := 0 }

/-- Route segment `XOXO → AMB(id-p)` of airway `N1`. -/
def segXP : RouteSegment :=
  { identifier := bytesOf "seg-1", route_formed := some (bytesOf "route-n1"),
    start := .DesignatedPoint (bytesOf "id-x"), end_ := .Navaid (bytesOf "id-p") }

/-- Route segment `AMB(id-p) → AMB(id-q)` of airway `N1`. -/
def segPQ : RouteSegment :=
  { identifier := bytesOf "seg-2", route_formed := some (bytesOf "route-n1"),
    start := .Navaid (bytesOf "id-p"), end_ := .Navaid (bytesOf "id-q") }

/-- The airway record `N1`. -/
def routeN1 : Route :=
  { identifier := bytesOf "route-n1", pfx := none,
    second_letter := some (bytesOf "N"), number := some (bytesOf "1"),
    multiple_identifier := none }

/-- A store holding the airway `N1` (segments `XOXO → AMB(id-p) → AMB(id-q)`)
and two navaids that share the name `AMB`. -/
def dbN1 : AirwayDatabase :=
  { airports := []
    navaids := [(bytesOf "id-p", navP), (bytesOf "id-q", navQ)]
    designated_points := [(bytesOf "id-x", dpX)]
    route_segments := [(bytesOf "seg-1", segXP), (bytesOf "seg-2", segPQ)]
    routes := [(bytesOf "route-n1", routeN1)]
    arrival_legs := []
    departure_legs := []
    standard_instrument_arrivals := []
    standard_instrument_departures := [] }

/-- The same store as `dbN1` with the two navaid entries in the opposite
iteration order. -/
def dbN1swap : AirwayDatabase :=
  { dbN1 with navaids := [(bytesOf "id-q", navQ), (bytesOf "id-p", navP)] }

/-- A navaid named `ERNAN`. -/
def navERNAN : Navaid :=
  { identifier := bytesOf "id-ernan", name := some (bytesOf "ERNAN"),
    type_ := bytesOf "VOR", latitude := 50, longitude := 6 }

/-- A store holding only the navaid `ERNAN`. -/
def dbERNAN : AirwayDatabase :=
  { airports := [], navaids := [(bytesOf "id-ernan", navERNAN)],
    designated_points := [], route_segments := [], routes := [],
    arrival_legs := [], departure_legs := [],
    standard_instrument_arrivals := [], standard_instrument_departures := [] }

/-- A resolved segment `XOXO → AMB(id-p)`. -/
def c7seg : ResolvedRouteSegment :=
  { start := .DesignatedPoint dpX, end_ := .Navaid navP,
    name := none, altitude := none, speed := none }

/-- A one-segment resolved route. -/
def c7route : ResolvedRoute := { segments := [c7seg], name := bytesOf "N1" }

/-! ## Correctness of the DFS sub-route extraction -/

/-- The source endpoint of a directed step `(segment index, is_forward)`. -/
def srcOf (segs : List ResolvedRouteSegment) (i : Nat) (f : Bool) : ResolvedPoint :=
  if f then (segs.getD i dummySeg).start else (segs.getD i dummySeg).end_

/-- The destination endpoint of a directed step. -/
def dstOf (segs : List ResolvedRouteSegment) (i : Nat) (f : Bool) : ResolvedPoint :=
  if f then (segs.getD i dummySeg).end_ else (segs.getD i dummySeg).start

/-- A step list forms a walk from `current` to `target` through the segment
graph: each step leaves the current point (up to the custom equality) and the
walk ends at a point equal to the target. -/
def WalkTo (segs : List ResolvedRouteSegment) (target : ResolvedPoint) :
    ResolvedPoint → List (Nat × Bool) → Prop
  | current, [] => rpEq current target = true
  | current, e :: es =>
      e.1 < segs.length ∧ rpEq (srcOf segs e.1 e.2) current = true ∧
        WalkTo segs target (dstOf segs e.1 e.2) es

/-- Unpacking membership in the adjacency list built by `between`. -/
theorem mem_neighborsOf {segs : List ResolvedRouteSegment} {p next : ResolvedPoint}
    {i : Nat} {f : Bool} (h : (next, i, f) ∈ neighborsOf segs p) :
    i < segs.length ∧ next = dstOf segs i f ∧ rpEq (srcOf segs i f) p = true := by
  unfold neighborsOf at h
  rw [List.mem_flatMap] at h
  obtain ⟨j, hj, hm⟩ := h
  rw [List.mem_range] at hj
  rw [List.mem_append] at hm
  rcases hm with hm | hm
  · by_cases hc : rpEq (segs.getD j dummySeg).start p = true
    · rw [if_pos hc, List.mem_singleton, Prod.mk.injEq, Prod.mk.injEq] at hm
      obtain ⟨hnext, hi, hf⟩ := hm
      subst hi; subst hf
      exact ⟨hj, by simp [dstOf, hnext], by simpa [srcOf] using hc⟩
    · rw [if_neg hc] at hm
      simp at hm
  · by_cases hc : rpEq (segs.getD j dummySeg).end_ p = true
    · rw [if_pos hc, List.mem_singleton, Prod.mk.injEq, Prod.mk.injEq] at hm
      obtain ⟨hnext, hi, hf⟩ := hm
      subst hi; subst hf
      exact ⟨hj, by simp [dstOf, hnext], by simpa [srcOf] using hc⟩
    · rw [if_neg hc] at hm
      simp at hm

/-- If `findSome?` finds a value, some element produced it. -/
theorem findSome?_eq_some_exists {α β : Type} {f : α → Option β} {l : List α} {b : β}
    (h : l.findSome? f = some b) : ∃ a ∈ l, f a = some b := by
  induction l with
  | nil => simp [List.findSome?] at h
  | cons x xs ih =>
    rw [List.findSome?_cons] at h
    cases hfx : f x with
    | some v =>
        rw [hfx] at h
        exact ⟨x, List.mem_cons_self x xs, hfx.trans h⟩
    | none =>
        rw [hfx] at h
        obtain ⟨a, ha, hfa⟩ := ih h
        exact ⟨a, List.mem_cons_of_mem x ha, hfa⟩

/-- Soundness of `dfs_helper`: a successful search extends the accumulated
path by steps with fresh, in-range segment indices, pairwise distinct, that
form a walk from the current point to the target. -/
theorem dfsHelper_spec (segs : List ResolvedRouteSegment) (target : ResolvedPoint) :
    ∀ (fuel : Nat) (current : ResolvedPoint) (path : List (Nat × Bool))
      (visited : List Nat) (res : List (Nat × Bool)),
      dfsHelper segs fuel current target path visited = some res →
      ∃ ext, res = path ++ ext ∧
        (∀ e ∈ ext, e.1 < segs.length ∧ e.1 ∉ visited) ∧
        (ext.map Prod.fst).Nodup ∧
        WalkTo segs target current ext := by
  intro fuel
  induction fuel with
  | zero =>
    intro current path visited res h
    simp [dfsHelper] at h
  | succ n ih =>
    intro current path visited res h
    rw [dfsHelper] at h
    by_cases hct : rpEq current target = true
    · rw [if_pos hct] at h
      obtain rfl : path = res := Option.some.inj h
      exact ⟨[], by simp, by simp, by simp, hct⟩
    · rw [if_neg hct] at h
      obtain ⟨nb, hnb, hf⟩ := findSome?_eq_some_exists h
      obtain ⟨next, i, fwd⟩ := nb
      by_cases hv : (visited.contains i) = true
      · rw [if_pos hv] at hf
        simp at hf
      · rw [if_neg hv] at hf
        obtain ⟨ext', hres, hmem, hnd, hwalk⟩ :=
          ih next (path ++ [(i, fwd)]) (i :: visited) res hf
        obtain ⟨hlen, hdst, hsrc⟩ := mem_neighborsOf hnb
        have hiv : i ∉ visited := by simpa using hv
        refine ⟨(i, fwd) :: ext', ?_, ?_, ?_, ?_⟩
        · rw [hres, List.append_assoc, List.singleton_append]
        · intro e he
          rcases List.mem_cons.1 he with rfl | he
          · exact ⟨hlen, hiv⟩
          · obtain ⟨h1, h2⟩ := hmem e he
            exact ⟨h1, fun hx => h2 (List.mem_cons_of_mem i hx)⟩
        · rw [List.map_cons, List.nodup_cons]
          refine ⟨?_, hnd⟩
          intro hx
          obtain ⟨e, he, hei⟩ := List.mem_map.1 hx
          exact (hmem e he).2 (hei ▸ List.mem_cons_self i visited)
        · exact ⟨hlen, hsrc, hdst ▸ hwalk⟩

/-- The last step of a walk arrives at the target. -/
theorem WalkTo_getLast (segs : List ResolvedRouteSegment) (target : ResolvedPoint) :
    ∀ (ext : List (Nat × Bool)) (current : ResolvedPoint) (e : Nat × Bool),
      WalkTo segs target current ext → ext.getLast? = some e →
      rpEq (dstOf segs e.1 e.2) target = true := by
  intro ext
  induction ext with
  | nil => intro current e _ hlast; simp at hlast
  | cons x xs ih =>
    intro current e hwalk hlast
    obtain ⟨_, _, htail⟩ := hwalk
    cases xs with
    | nil =>
      obtain rfl : x = e := by simpa using hlast
      exact htail
    | cons y ys =>
      rw [List.getLast?_cons_cons] at hlast
      exact ih (dstOf segs x.1 x.2) e htail hlast

/-- The endpoints of an emitted step segment are the step's direction-adjusted
endpoints of the underlying segment. -/
theorem stepSegment_ends (r : ResolvedRoute) (e : Nat × Bool) :
    (stepSegment r e).start = srcOf r.segments e.1 e.2 ∧
    (stepSegment r e).end_ = dstOf r.segments e.1 e.2 := by
  unfold stepSegment revSeg srcOf dstOf
  by_cases hf : e.2 = true <;> simp [hf]

/-! ## Claims C7 and C10: the `between` sub-route extraction -/

/-- The custom point equality is reflexive away from NaN coordinates:
identifier equality is reflexive, `|x - x| = 0 < EPSILON` on finite
coordinates, and `None == None`. -/
theorem rpEq_refl_of_not_nan (p : ResolvedPoint) (h : p.hasNaN = false) :
    rpEq p p = true := by
  cases p with
  | Coordinates la lo =>
    simp only [ResolvedPoint.hasNaN, Bool.or_eq_false_iff] at h
    obtain ⟨hla, hlo⟩ := h
    cases la with
    | nan => simp [F64.isNaN] at hla
    | finite a =>
      cases lo with
      | nan => simp [F64.isNaN] at hlo
      | finite b =>
        simp only [rpEq, f64EpsEq, Bool.and_eq_true, decide_eq_true_eq, sub_self, abs_zero]
        constructor <;> norm_num [f64Epsilon]
  | _ => simp [rpEq]

/-- No point compares equal to a coordinate point with a NaN component: the
f64 comparison is false whenever an operand is NaN. -/
theorem rpEq_nan_right (x : ResolvedPoint) (la lo : F64)
    (h : la.isNaN = true ∨ lo.isNaN = true) :
    rpEq x (.Coordinates la lo) = false := by
  cases x with
  | Coordinates a b =>
    rcases h with h | h
    · cases la with
      | finite _ => simp [F64.isNaN] at h
      | nan => cases a <;> simp [rpEq, f64EpsEq]
    · cases lo with
      | finite _ => simp [F64.isNaN] at h
      | nan => cases b <;> simp [rpEq, f64EpsEq]
  | _ => simp [rpEq]

/-- Claim C7: a successful `between(s, t)` yields a route whose segments are
copies or reversed copies of the route's segments, produced from pairwise
distinct segment indices (each underlying segment used at most once), whose
first segment starts at `s` and whose last segment ends at `t` (up to the
custom point equality; both conditions are vacuous for the empty result
produced when `s` equals `t`). -/
theorem between_subroute_spec (r : ResolvedRoute) (s t : ResolvedPoint)
    (r' : ResolvedRoute) (h : r.between s t = some r') :
    (∀ seg ∈ r'.segments, ∃ sg ∈ r.segments, seg = sg ∨ seg = revSeg r.name sg) ∧
    (∃ steps : List (Nat × Bool), r'.segments = steps.map (stepSegment r) ∧
      (steps.map Prod.fst).Nodup ∧ ∀ e ∈ steps, e.1 < r.segments.length) ∧
    (∀ h0, r'.segments.head? = some h0 → rpEq h0.start s = true) ∧
    (∀ l0, r'.segments.getLast? = some l0 → rpEq l0.end_ t = true) := by
  unfold ResolvedRoute.between at h
  cases hd : dfsHelper r.segments (r.segments.length + 1) s t [] [] with
  | none => rw [hd] at h; simp at h
  | some steps =>
    rw [hd] at h
    obtain rfl : build_route_from_path r steps = r' := Option.some.inj h
    obtain ⟨ext, hext, hmem, hnd, hwalk⟩ :=
      dfsHelper_spec r.segments t (r.segments.length + 1) s [] [] steps hd
    rw [List.nil_append] at hext
    subst hext
    refine ⟨?_, ⟨steps, rfl, hnd, fun e he => (hmem e he).1⟩, ?_, ?_⟩
    · intro seg hseg
      obtain ⟨e, he, rfl⟩ := List.mem_map.1 hseg
      have hlen := (hmem e he).1
      refine ⟨r.segments.getD e.1 dummySeg, ?_, ?_⟩
      · rw [List.getD_eq_getElem r.segments dummySeg hlen]
        exact List.getElem_mem hlen
      · unfold stepSegment
        by_cases hf : e.2 = true <;> simp [hf]
    · intro h0 hh0
      cases steps with
      | nil => simp [build_route_from_path] at hh0
      | cons e es =>
        have heq : stepSegment r e = h0 := by
          simpa [build_route_from_path] using hh0
        subst heq
        obtain ⟨_, hsrc, _⟩ := hwalk
        rw [(stepSegment_ends r e).1]
        exact hsrc
    · intro l0 hl0
      simp only [build_route_from_path, List.getLast?_map] at hl0
      cases hle : steps.getLast? with
      | none => rw [hle] at hl0; simp at hl0
      | some e =>
        rw [hle] at hl0
        obtain rfl : stepSegment r e = l0 := Option.some.inj hl0
        rw [(stepSegment_ends r e).2]
        exact WalkTo_getLast r.segments t steps s e hwalk hle

/-- Claim C7, witness: on the one-segment route `XOXO → AMB(id-p)` the search
from `XOXO` to `AMB(id-p)` succeeds with the route itself, which satisfies
all four conclusions. -/
theorem between_subroute_spec_witness :
    (∀ seg ∈ c7route.segments, ∃ sg ∈ c7route.segments,
        seg = sg ∨ seg = revSeg c7route.name sg) ∧
    (∃ steps : List (Nat × Bool), c7route.segments = steps.map (stepSegment c7route) ∧
      (steps.map Prod.fst).Nodup ∧ ∀ e ∈ steps, e.1 < c7route.segments.length) ∧
    (∀ h0, c7route.segments.head? = some h0 →
        rpEq h0.start (.DesignatedPoint dpX) = true) ∧
    (∀ l0, c7route.segments.getLast? = some l0 →
        rpEq l0.end_ (.Navaid navP) = true) :=
  between_subroute_spec c7route (.DesignatedPoint dpX) (.Navaid navP) c7route (by decide)

/-- A coordinate point with a NaN component has no neighbours: no endpoint of
any segment compares equal to it. -/
theorem neighborsOf_nan (segs : List ResolvedRouteSegment) (la lo : F64)
    (h : la.isNaN = true ∨ lo.isNaN = true) :
    neighborsOf segs (.Coordinates la lo) = [] := by
  have hr : ∀ x, rpEq x (.Coordinates la lo) = false :=
    fun x => rpEq_nan_right x la lo h
  simp [neighborsOf, hr]

/-- Claim C10, counterexample: at a coordinate point with NaN latitude the
source `PartialEq` is irreflexive (`(NaN - NaN).abs() < EPSILON` is false), so
the DFS neither terminates at the start nor finds any edge, and
`between(p, p)` returns `None` rather than `Some` of an empty route. -/
theorem between_nan_self_not_some_empty :
    c7route.between (.Coordinates .nan (.finite 0)) (.Coordinates .nan (.finite 0)) =
      none ∧
    rpEq (.Coordinates .nan (.finite 0)) (.Coordinates .nan (.finite 0)) = false := by
  exact ⟨by decide, by decide⟩

/-- Claim C10, amended: `between(p, p)` returns `Some` of a route with an
empty segment list for every point `p` at which the custom equality is
reflexive — that is, every point except `Coordinates` with a NaN component —
whether or not `p` occurs in the route; at a `Coordinates` point with a NaN
component the equality is irreflexive and `between(p, p)` returns `None`. -/
theorem between_self_empty_unless_nan :
    (∀ (r : ResolvedRoute) (p : ResolvedPoint), rpEq p p = true →
      r.between p p = some { segments := [], name := r.name }) ∧
    (∀ p : ResolvedPoint, p.hasNaN = false → rpEq p p = true) ∧
    (∀ (r : ResolvedRoute) (la lo : F64), la.isNaN = true ∨ lo.isNaN = true →
      r.between (.Coordinates la lo) (.Coordinates la lo) = none) := by
  refine ⟨?_, rpEq_refl_of_not_nan, ?_⟩
  · intro r p hp
    unfold ResolvedRoute.between
    rw [dfsHelper, if_pos hp]
    rfl
  · intro r la lo h
    have hr : rpEq (ResolvedPoint.Coordinates la lo) (.Coordinates la lo) = false :=
      rpEq_nan_right _ la lo h
    unfold ResolvedRoute.between
    rw [dfsHelper, if_neg (by simp [hr]), neighborsOf_nan r.segments la lo h]
    rfl

/-- Claim C10, amended, witness: a navaid point is reflexive and yields the
empty sub-route on a concrete route; a NaN-latitude coordinate point yields
`None` on the same route. -/
theorem between_self_empty_unless_nan_witness :
    (rpEq (.Navaid navP) (.Navaid navP) = true ∧
      c7route.between (.Navaid navP) (.Navaid navP) =
        some { segments := [], name := c7route.name }) ∧
    ((ResolvedPoint.Navaid navP).hasNaN = false ∧
      rpEq (.Navaid navP) (.Navaid navP) = true) ∧
    ((F64.nan.isNaN = true ∨ (F64.finite 5).isNaN = true) ∧
      c7route.between (.Coordinates .nan (.finite 5)) (.Coordinates .nan (.finite 5)) =
        none) :=
  ⟨⟨by decide, between_self_empty_unless_nan.1 c7route (.Navaid navP) (by decide)⟩,
   ⟨by decide, between_self_empty_unless_nan.2.1 (.Navaid navP) (by decide)⟩,
   ⟨Or.inl (by decide),
    between_self_empty_unless_nan.2.2 c7route .nan (.finite 5) (Or.inl (by decide))⟩⟩

/-! ## Claim C3: equality of `Coordinates` points -/

/-- Claim C3, counterexample: two `Coordinates` points whose latitudes differ
as values (hence bitwise, both being exactly representable in `f64`: `0` and
`2^-53`) nevertheless compare equal, because the source compares with a
`< f64::EPSILON` tolerance rather than bitwise. -/
theorem coordinates_eq_not_bitwise :
    rpEq (.Coordinates (.finite 0) (.finite 0))
      (.Coordinates (.finite (1 / 2 ^ 53)) (.finite 0)) = true ∧
    (1 / 2 ^ 53 : ℚ) ≠ 0 := by
  refine ⟨?_, by norm_num⟩
  simp only [rpEq, f64EpsEq, Bool.and_eq_true, decide_eq_true_eq, f64Epsilon]
  constructor <;> rw [abs_lt] <;> constructor <;> norm_num

/-- Claim C3, amended: two `Coordinates` points compare equal exactly when the
absolute differences of both latitude and longitude are strictly below
`f64::EPSILON` (tolerance-based, not bitwise); hashing, in contrast, uses the
bit-level values. -/
theorem coordinates_eq_iff_epsilon (la lo lb lob : ℚ) :
    rpEq (.Coordinates (.finite la) (.finite lo))
        (.Coordinates (.finite lb) (.finite lob)) = true ↔
      |la - lb| < f64Epsilon ∧ |lo - lob| < f64Epsilon := by
  simp [rpEq, f64EpsEq]

/-! ## Claim C4: query normalization in the point resolver -/

/-- ASCII lowercasing is idempotent. -/
theorem asciiLower_idem (b : Nat) : asciiLower (asciiLower b) = asciiLower b := by
  unfold asciiLower
  split
  · split <;> omega
  · rfl

/-- Case-folding the query does not change the case-insensitive comparison. -/
theorem eqIgnoreAsciiCase_lower (t name : Str) :
    eqIgnoreAsciiCase t (name.map asciiLower) = eqIgnoreAsciiCase t name := by
  unfold eqIgnoreAsciiCase
  rw [List.map_map, show asciiLower ∘ asciiLower = asciiLower from funext asciiLower_idem]

/-- Claim C4, counterexample: the point resolver trims the stored names, not
the query, so a query with surrounding whitespace does not return the same
candidates as the trimmed, case-folded query. -/
theorem point_lookup_not_whitespace_insensitive :
    ResolvedPoint.lookup (bytesOf " ERNAN ") dbERNAN = [] ∧
    ResolvedPoint.lookup (bytesOf "ernan") dbERNAN = [.Navaid navERNAN] := by decide

/-- Claim C4, amended: the point resolver is invariant under ASCII case
changes of the query; whitespace insensitivity applies to the stored names
(which are trimmed before comparison), not to the query, so surrounding
whitespace in the query can change the result. -/
theorem point_lookup_case_insensitive (name : Str) (db : AirwayDatabase) :
    ResolvedPoint.lookup (name.map asciiLower) db = ResolvedPoint.lookup name db := by
  unfold ResolvedPoint.lookup
  have h1 : navaidNameMatches (name.map asciiLower) = navaidNameMatches name := by
    funext n
    unfold navaidNameMatches
    cases n.name <;> simp [eqIgnoreAsciiCase_lower]
  have h2 : designatorMatches (name.map asciiLower) = designatorMatches name := by
    funext dp
    unfold designatorMatches
    rw [eqIgnoreAsciiCase_lower]
  rw [h1, h2]

/-! ## Claim C8: designator decomposition -/

/-- Claim C8: the airway designator decomposition of `ResolvedRoute::lookup`
on the four spec examples: `UN857 ↦ (U, N, 857, −)`, `N857 ↦ (−, N, 857, −)`,
`N857B ↦ (−, N, 857, B)`, `UL2 ↦ (U, L, 2, −)`. -/
theorem decompose_designator_examples :
    decomposeDesignator (bytesOf "UN857") =
      some (some (bytesOf "U"), bytesOf "N", bytesOf "857", none) ∧
    decomposeDesignator (bytesOf "N857") =
      some (none, bytesOf "N", bytesOf "857", none) ∧
    decomposeDesignator (bytesOf "N857B") =
      some (none, bytesOf "N", bytesOf "857", some (bytesOf "B")) ∧
    decomposeDesignator (bytesOf "UL2") =
      some (some (bytesOf "U"), bytesOf "L", bytesOf "2", none) := by decide

/-! ## Claim C9: rejection of unrecognized airway prefixes -/

/-- Claim C9: a designator starting with none of the 32 recognized airway
prefixes makes the route resolver return the empty list. -/
theorem route_lookup_rejects_unknown_prefixes (name : Str) (db : AirwayDatabase)
    (h : ∀ p ∈ VALID_ROUTE_PREFIXES, p.isPrefixOf name = false) :
    ResolvedRoute.lookup name db = [] := by
  have hany : VALID_ROUTE_PREFIXES.any (fun p => p.isPrefixOf name) = false := by
    simp only [List.any_eq_false]
    intro p hp
    simp [h p hp]
  simp [ResolvedRoute.lookup, hany]

/-- Claim C9, witness: `E5` starts with no recognized prefix and the lookup
on a populated store returns the empty list. -/
theorem route_lookup_rejects_unknown_prefixes_witness :
    (∀ p ∈ VALID_ROUTE_PREFIXES, p.isPrefixOf (bytesOf "E5") = false) ∧
    ResolvedRoute.lookup (bytesOf "E5") dbN1 = [] :=
  ⟨by decide, route_lookup_rejects_unknown_prefixes (bytesOf "E5") dbN1 (by decide)⟩

/-! ## Claim C5, counterexample part: unsorted hash-order results -/

/-- Claim C5, counterexample: the candidate list of `ResolvedPoint::lookup` is
returned in hash-map iteration order without sorting — two stores with the
same navaid map but different iteration orders give different result lists. -/
theorem point_lookup_depends_on_iteration_order :
    dbN1.navaids.Perm dbN1swap.navaids ∧
    ResolvedPoint.lookup (bytesOf "AMB") dbN1 ≠
      ResolvedPoint.lookup (bytesOf "AMB") dbN1swap := by
  constructor
  · decide
  · decide

/-! ## Claim C1: totality of `enrich_route` -/

/-- Claim C1 (refuted; the spec is the intent and the code a slip): on any
input whose candidate vector is empty — the empty token sequence, or a
sequence of only `Modifier` tokens — `enrich_route` does not return a list:
pass 1 computes the range `1..resolved.len() - 1`, whose upper bound
underflows `usize`, so debug builds abort on the subtraction and release
builds call `split_at_mut(1)` on the empty vector and panic. -/
theorem enrich_route_panics_on_empty_candidates
    (dist : ResolvedPoint → ResolvedPoint → ℚ)
    (score : ResolvedPoint → ResolvedPoint → ResolvedPoint → ℚ)
    (db : AirwayDatabase) (m : Modifier) :
    enrich_route dist score db [] = none ∧
    enrich_route dist score db [.Modifier m] = none :=
  ⟨rfl, rfl⟩

/-! ## Claim C6: the `last_known` anchor of pass 6 -/

/-- Modelled from the claim's words, for comparison with the source: a pass-6
fold in which `last_known` is also updated by an `Airway` whose first
candidate route's last segment end is adopted, and by a `Point` exactly when
its candidate list ends up a singleton. -/
def pass6GoClaimed (dist : ResolvedPoint → ResolvedPoint → ℚ)
    (score : ResolvedPoint → ResolvedPoint → ResolvedPoint → ℚ)
    (lastKnown : Option ResolvedPoint) :
    List EnrichedCandidates → List EnrichedCandidates
  | [] => []
  | c :: rest =>
    match c with
    | .Point points altitude speed =>
      let points' :=
        if 1 < points.length then
          disambiguate dist score lastKnown (nextDefinitive (c :: rest)) points
        else points
      let lk' := match points' with
        | [p] => some p
        | _ => lastKnown
      .Point points' altitude speed :: pass6GoClaimed dist score lk' rest
    | .PointCoords p altitude speed =>
        .PointCoords p altitude speed :: pass6GoClaimed dist score (some p) rest
    | .Airway routes name altitude speed =>
      let lk' := match routes.head? with
        | some route =>
          match route.segments.getLast? with
          | some lastSeg => some lastSeg.end_
          | none => lastKnown
        | none => lastKnown
      .Airway routes name altitude speed :: pass6GoClaimed dist score lk' rest
    | .Direct => .Direct :: pass6GoClaimed dist score lastKnown rest

/-- Modelled from the claim's words, for comparison: `enrich_route` with the
claimed anchor-update rule in pass 6. -/
def enrich_route_claimed (dist : ResolvedPoint → ResolvedPoint → ℚ)
    (score : ResolvedPoint → ResolvedPoint → ResolvedPoint → ℚ)
    (db : AirwayDatabase) (elements : List Field15Element) :
    Option (List ResolvedRouteSegment) :=
  let resolved := resolveCandidates db none none elements
  if resolved.isEmpty then none
  else
    pass7Go none
      (pass6GoClaimed dist score none (pass5 (pass4 (pass3 (pass2 (pass1 resolved))))))

/-- A structural stand-in for the WGS-84 distance in the counterexample. -/
def c6dist : ResolvedPoint → ResolvedPoint → ℚ := fun a b => if a = b then 0 else 1

/-- A constant stand-in for the hybrid score in the counterexample. -/
def c6score : ResolvedPoint → ResolvedPoint → ResolvedPoint → ℚ := fun _ _ _ => 0

/-- The token sequence `N1 AMB`: an airway followed by an ambiguous point. -/
def c6tokens : List Field15Element :=
  [.Connector (.Airway (bytesOf "N1")), .Point (.Waypoint (bytesOf "AMB"))]

/-- The airway segment `XOXO → AMB(id-p)` as emitted by pass 7. -/
def c6seg1 : ResolvedRouteSegment :=
  { start := .DesignatedPoint dpX, end_ := .Navaid navP,
    name := some (bytesOf "N1"), altitude := none, speed := none }

/-- The airway segment `AMB(id-p) → AMB(id-q)` as emitted by pass 7. -/
def c6seg2 : ResolvedRouteSegment :=
  { start := .Navaid navP, end_ := .Navaid navQ,
    name := some (bytesOf "N1"), altitude := none, speed := none }

/-- The trailing segment `AMB(id-q) → AMB(id-p)` emitted because the code
leaves `last_known` unset after the airway. -/
def c6seg3 : ResolvedRouteSegment :=
  { start := .Navaid navQ, end_ := .Navaid navP,
    name := none, altitude := none, speed := none }

/-- Claim C6, counterexample: for `N1 AMB` on a store in which the airway
`N1` runs `XOXO → AMB(id-p) → AMB(id-q)` and `AMB` is ambiguous between the
two navaids, the code leaves `last_known` unset after the airway (pass 6 never
updates it from an `Airway`), leaves `AMB` ambiguous, and pass 7 picks the
first candidate `id-p`, emitting a back-tracking segment; under the claimed
anchor rule the airway end `AMB(id-q)` would be the anchor, the distance
tie-break would select `id-q`, and no trailing segment would be emitted. -/
theorem pass6_airway_does_not_update_last_known :
    enrich_route c6dist c6score dbN1 c6tokens = some [c6seg1, c6seg2, c6seg3] ∧
    enrich_route_claimed c6dist c6score dbN1 c6tokens = some [c6seg1, c6seg2] ∧
    ([c6seg1, c6seg2, c6seg3] : List ResolvedRouteSegment) ≠ [c6seg1, c6seg2] := by
  exact ⟨by decide, by decide, by decide⟩

/-- Claim C6, amended: in pass 6 `last_known` is updated by a prior `Point`
with a nonempty candidate list (to its first candidate — a singleton after
any successful disambiguation) and by a prior `PointCoords`; an `Airway`
leaves `last_known` unchanged (the adopted airway end feeds only pass 7's
`previous_point`). -/
theorem pass6_last_known_update_rule (dist : ResolvedPoint → ResolvedPoint → ℚ)
    (score : ResolvedPoint → ResolvedPoint → ResolvedPoint → ℚ)
    (lk : Option ResolvedPoint) (rest : List EnrichedCandidates)
    (routes : List ResolvedRoute) (name : Str) (alt : Option Altitude)
    (spd : Option Speed) (p : ResolvedPoint) :
    pass6Go dist score lk (.Airway routes name alt spd :: rest) =
      .Airway routes name alt spd :: pass6Go dist score lk rest ∧
    pass6Go dist score lk (.PointCoords p alt spd :: rest) =
      .PointCoords p alt spd :: pass6Go dist score (some p) rest ∧
    pass6Go dist score lk (.Point [p] alt spd :: rest) =
      .Point [p] alt spd :: pass6Go dist score (some p) rest := by
  refine ⟨rfl, rfl, ?_⟩
  simp [pass6Go]

/-! ## Claim C2: STAR entry points -/

/-- Spec-level out-degree: the number of legs whose (nonempty) start name is
`n`. -/
def specOutDeg (legs : List (PointReference × PointReference)) (n : Str) : Nat :=
  (legs.filter (fun l => l.1.name == n && !l.1.name.isEmpty)).length

/-- Spec-level in-degree: the number of legs whose (nonempty) end name is
`n`. -/
def specInDeg (legs : List (PointReference × PointReference)) (n : Str) : Nat :=
  (legs.filter (fun l => l.2.name == n && !l.2.name.isEmpty)).length

/-- Bumping a key adds one to its count and leaves the others. -/
theorem countGet_bumpEntry (m : List (Str × Nat)) (k k' : Str) :
    countGet (bumpEntry m k) k' = countGet m k' + (if k' = k then 1 else 0) := by
  induction m with
  | nil =>
    by_cases h : k' = k
    · subst h; simp [bumpEntry, countGet]
    · simp [bumpEntry, countGet, h, Ne.symm h]
  | cons kv rest ih =>
    by_cases h0 : kv.1 = k
    · simp only [bumpEntry, if_pos h0, countGet]
      by_cases h' : kv.1 = k'
      · rw [if_pos h', if_pos h', if_pos (h'.symm.trans h0)]
      · rw [if_neg h', if_neg h', if_neg (fun hh => h' (h0.trans hh.symm))]
        omega
    · simp only [bumpEntry, if_neg h0, countGet]
      by_cases h' : kv.1 = k'
      · rw [if_pos h', if_pos h', if_neg (fun hh => h0 (h'.trans hh))]
        omega
      · rw [if_neg h', if_neg h', ih]

/-- The per-leg contribution to the in-degree map. -/
theorem degStep_indeg (st : DegState) (leg : PointReference × PointReference) (n : Str) :
    countGet (degStep st leg).1 n =
      countGet st.1 n + (if leg.2.name = n ∧ leg.2.name ≠ [] then 1 else 0) := by
  show countGet (if leg.2.name ≠ [] then bumpEntry st.1 leg.2.name else st.1) n = _
  by_cases he : leg.2.name = []
  · simp [he]
  · rw [if_pos he, countGet_bumpEntry]
    by_cases hn : n = leg.2.name
    · rw [if_pos hn, if_pos ⟨hn.symm, he⟩]
    · rw [if_neg hn, if_neg (fun hc => hn hc.1.symm)]

/-- The per-leg contribution to the out-degree map. -/
theorem degStep_outdeg (st : DegState) (leg : PointReference × PointReference) (n : Str) :
    countGet (degStep st leg).2.1 n =
      countGet st.2.1 n + (if leg.1.name = n ∧ leg.1.name ≠ [] then 1 else 0) := by
  show countGet (if leg.1.name ≠ [] then bumpEntry st.2.1 leg.1.name else st.2.1) n = _
  by_cases hs : leg.1.name = []
  · simp [hs]
  · rw [if_pos hs, countGet_bumpEntry]
    by_cases hn : n = leg.1.name
    · rw [if_pos hn, if_pos ⟨hn.symm, hs⟩]
    · rw [if_neg hn, if_neg (fun hc => hn hc.1.symm)]

/-- Unfolding the spec-level in-degree over a cons. -/
theorem specInDeg_cons (leg : PointReference × PointReference)
    (rest : List (PointReference × PointReference)) (n : Str) :
    specInDeg (leg :: rest) n =
      (if leg.2.name = n ∧ leg.2.name ≠ [] then 1 else 0) + specInDeg rest n := by
  unfold specInDeg
  rw [List.filter_cons]
  by_cases hc : (leg.2.name == n && !leg.2.name.isEmpty) = true
  · rw [if_pos hc, if_pos ?_]
    · simp [Nat.add_comm]
    · simp only [Bool.and_eq_true, beq_iff_eq, Bool.not_eq_true'] at hc
      exact ⟨hc.1, by simpa [List.isEmpty_iff] using hc.2⟩
  · rw [if_neg hc, if_neg ?_]
    · simp
    · intro hp
      have hn : n ≠ [] := hp.1 ▸ hp.2
      exact hc (by simp [hp.1, List.isEmpty_iff, hn])

/-- Unfolding the spec-level out-degree over a cons. -/
theorem specOutDeg_cons (leg : PointReference × PointReference)
    (rest : List (PointReference × PointReference)) (n : Str) :
    specOutDeg (leg :: rest) n =
      (if leg.1.name = n ∧ leg.1.name ≠ [] then 1 else 0) + specOutDeg rest n := by
  unfold specOutDeg
  rw [List.filter_cons]
  by_cases hc : (leg.1.name == n && !leg.1.name.isEmpty) = true
  · rw [if_pos hc, if_pos ?_]
    · simp [Nat.add_comm]
    · simp only [Bool.and_eq_true, beq_iff_eq, Bool.not_eq_true'] at hc
      exact ⟨hc.1, by simpa [List.isEmpty_iff] using hc.2⟩
  · rw [if_neg hc, if_neg ?_]
    · simp
    · intro hp
      have hn : n ≠ [] := hp.1 ▸ hp.2
      exact hc (by simp [hp.1, List.isEmpty_iff, hn])

/-- The degree fold computes the spec-level degrees. -/
theorem degFold_counts (legs : List (PointReference × PointReference)) :
    ∀ (st : DegState) (n : Str),
      countGet (legs.foldl degStep st).1 n = countGet st.1 n + specInDeg legs n ∧
      countGet (legs.foldl degStep st).2.1 n = countGet st.2.1 n + specOutDeg legs n := by
  induction legs with
  | nil => intro st n; simp [specInDeg, specOutDeg]
  | cons leg rest ih =>
    intro st n
    rw [List.foldl_cons]
    obtain ⟨h1, h2⟩ := ih (degStep st leg) n
    rw [h1, h2, degStep_indeg, degStep_outdeg, specInDeg_cons, specOutDeg_cons]
    omega

/-- Overwriting inserts preserve an entry-wise invariant. -/
theorem putEntry_forall {α : Type} (P : Str × α → Prop) (m : List (Str × α))
    (k : Str) (v : α) (hm : ∀ kv ∈ m, P kv) (hkv : P (k, v)) :
    ∀ kv ∈ putEntry m k v, P kv := by
  induction m with
  | nil =>
    intro kv h
    rw [show putEntry [] k v = [(k, v)] from rfl, List.mem_singleton] at h
    exact h ▸ hkv
  | cons kv0 rest ih =>
    intro kv h
    by_cases h0 : kv0.1 = k
    · rw [show putEntry (kv0 :: rest) k v =
          if kv0.1 = k then (k, v) :: rest else kv0 :: putEntry rest k v from rfl,
        if_pos h0] at h
      rcases List.mem_cons.1 h with rfl | h
      · exact hkv
      · exact hm kv (List.mem_cons_of_mem kv0 h)
    · rw [show putEntry (kv0 :: rest) k v =
          if kv0.1 = k then (k, v) :: rest else kv0 :: putEntry rest k v from rfl,
        if_neg h0] at h
      rcases List.mem_cons.1 h with rfl | h
      · exact hm kv (List.mem_cons_self kv rest)
      · exact ih (fun kv' hkv' => hm kv' (List.mem_cons_of_mem kv0 hkv')) kv h

/-- Every entry of the refs map keys a point reference by its (nonempty)
name. -/
theorem degFold_refs (legs : List (PointReference × PointReference)) :
    ∀ st : DegState,
      (∀ kv ∈ st.2.2, kv.1 = (kv.2 : PointReference).name ∧ kv.1 ≠ []) →
      ∀ kv ∈ (legs.foldl degStep st).2.2, kv.1 = kv.2.name ∧ kv.1 ≠ [] := by
  induction legs with
  | nil => intro st hst; exact hst
  | cons leg rest ih =>
    intro st hst
    rw [List.foldl_cons]
    refine ih (degStep st leg) ?_
    show ∀ kv ∈ (let refs := if leg.1.name ≠ [] then putEntry st.2.2 leg.1.name leg.1
          else st.2.2
        if leg.2.name ≠ [] then putEntry refs leg.2.name leg.2 else refs),
      kv.1 = kv.2.name ∧ kv.1 ≠ []
    have hrefs1 : ∀ kv ∈ (if leg.1.name ≠ [] then putEntry st.2.2 leg.1.name leg.1
        else st.2.2), kv.1 = (kv.2 : PointReference).name ∧ kv.1 ≠ [] := by
      by_cases hs : leg.1.name = []
      · simpa [hs] using hst
      · rw [if_pos hs]
        exact putEntry_forall _ _ _ _ hst ⟨rfl, hs⟩
    by_cases he : leg.2.name = []
    · simpa [he] using hrefs1
    · simp only [if_pos he]
      exact putEntry_forall _ _ _ _ hrefs1 ⟨rfl, he⟩

/-- Soundness of `procedure_entry_points`: every returned reference is a
non-airport node of the leg graph with in-degree 0 and out-degree > 0. -/
theorem procedure_entry_points_sound (db : AirwayDatabase) (ids : List Str)
    (dep : Bool) (pr : PointReference)
    (h : pr ∈ procedure_entry_points db ids dep) :
    pr.isAirportHeliport = false ∧
    specInDeg (legsFor db ids dep) pr.name = 0 ∧
    0 < specOutDeg (legsFor db ids dep) pr.name := by
  unfold procedure_entry_points at h
  rw [List.mem_filterMap] at h
  obtain ⟨kv, hkv, hif⟩ := h
  by_cases ha : kv.2.isAirportHeliport = true
  · rw [if_pos ha] at hif
    exact absurd hif (by simp)
  · rw [if_neg ha] at hif
    by_cases hc : countGet ((legsFor db ids dep).foldl degStep ([], [], [])).1 kv.1 = 0 ∧
        0 < countGet ((legsFor db ids dep).foldl degStep ([], [], [])).2.1 kv.1
    · rw [if_pos hc] at hif
      obtain rfl : kv.2 = pr := Option.some.inj hif
      obtain ⟨hname, -⟩ :=
        degFold_refs (legsFor db ids dep) ([], [], []) (by simp) kv hkv
      obtain ⟨hin, hout⟩ := hc
      obtain ⟨hin', hout'⟩ := degFold_counts (legsFor db ids dep) ([], [], []) kv.1
      rw [hin'] at hin
      rw [hout'] at hout
      simp only [countGet, Nat.zero_add] at hin hout
      rw [← hname]
      exact ⟨Bool.not_eq_true _ ▸ ha, by omega, by omega⟩
    · rw [if_neg hc] at hif
      exact absurd hif (by simp)

/-- Designated point `A` of the STAR example. -/
def dpA : DesignatedPoint :=
  { identifier := bytesOf "id-a", latitude := 1, longitude := 1,
    designator := bytesOf "AAAAA", name := none, type_ := bytesOf "ICAO" }

/-- Designated point `B` of the STAR example. -/
def dpB : DesignatedPoint :=
  { identifier := bytesOf "id-b", latitude := 2, longitude := 2,
    designator := bytesOf "BBBBB", name := none, type_ := bytesOf "ICAO" }

/-- Designated point `C` of the STAR example. -/
def dpC : DesignatedPoint :=
  { identifier := bytesOf "id-c", latitude := 3, longitude := 3,
    designator := bytesOf "CCCCC", name := none, type_ := bytesOf "ICAO" }

/-- Designated point `D` of the STAR example. -/
def dpD : DesignatedPoint :=
  { identifier := bytesOf "id-d", latitude := 4, longitude := 4,
    designator := bytesOf "DDDDD", name := none, type_ := bytesOf "ICAO" }

/-- Arrival leg `A → B`. -/
def legAB : ArrivalLeg :=
  { identifier := bytesOf "leg-1", arrival := some (bytesOf "star-1"),
    start := .DesignatedPoint (bytesOf "id-a"), end_ := .DesignatedPoint (bytesOf "id-b") }

/-- Arrival leg `B → C`. -/
def legBC : ArrivalLeg :=
  { identifier := bytesOf "leg-2", arrival := some (bytesOf "star-1"),
    start := .DesignatedPoint (bytesOf "id-b"), end_ := .DesignatedPoint (bytesOf "id-c") }

/-- Arrival leg `B → D`. -/
def legBD : ArrivalLeg :=
  { identifier := bytesOf "leg-3", arrival := some (bytesOf "star-1"),
    start := .DesignatedPoint (bytesOf "id-b"), end_ := .DesignatedPoint (bytesOf "id-d") }

/-- A STAR with designator `STAR1` and leg graph `{A→B, B→C, B→D}`. -/
def starS1 : StandardInstrumentArrival :=
  { identifier := bytesOf "star-1", designator := bytesOf "STAR1",
    airport_heliport := none, instruction := none, connecting_points := [] }

/-- A store holding the STAR `STAR1` with legs `{A→B, B→C, B→D}`. -/
def dbSTAR : AirwayDatabase :=
  { airports := []
    navaids := []
    designated_points := [(bytesOf "id-a", dpA), (bytesOf "id-b", dpB),
      (bytesOf "id-c", dpC), (bytesOf "id-d", dpD)]
    route_segments := []
    routes := []
    arrival_legs := [(bytesOf "leg-1", legAB), (bytesOf "leg-2", legBC),
      (bytesOf "leg-3", legBD)]
    departure_legs := []
    standard_instrument_arrivals := [(bytesOf "star-1", starS1)]
    standard_instrument_departures := [] }

/-- Claim C2, counterexample: on the STAR with leg graph `{A→B, B→C, B→D}`
the resolver returns `{A}` (the in-degree-0, out-degree-positive node), not
the claimed `{C, D}` (the out-degree-0 nodes): `procedure_entry_points`
filters with `in_d == 0 && out_d > 0`. -/
theorem resolve_star_points_returns_sources :
    resolve_star_points dbSTAR (bytesOf "STAR1") = [.DesignatedPoint dpA] ∧
    (ResolvedPoint.DesignatedPoint dpA ≠ .DesignatedPoint dpC) ∧
    (ResolvedPoint.DesignatedPoint dpA ≠ .DesignatedPoint dpD) := by
  exact ⟨by decide, by decide, by decide⟩

/-- Claim C2, amended: `resolve_star_points` extracts the procedure's
leg-graph *sources* — nodes with in-degree 0 and out-degree > 0, airport and
heliport references excluded — as shown in general for the extraction and
concretely for the `{A→B, B→C, B→D}` example, which yields `{A}`. -/
theorem resolve_star_points_entry_degrees :
    (∀ (db : AirwayDatabase) (ids : List Str) (dep : Bool) (pr : PointReference),
      pr ∈ procedure_entry_points db ids dep →
      pr.isAirportHeliport = false ∧
      specInDeg (legsFor db ids dep) pr.name = 0 ∧
      0 < specOutDeg (legsFor db ids dep) pr.name) ∧
    resolve_star_points dbSTAR (bytesOf "STAR1") = [.DesignatedPoint dpA] ∧
    specInDeg (legsFor dbSTAR [bytesOf "star-1"] false) (bytesOf "id-a") = 0 ∧
    0 < specOutDeg (legsFor dbSTAR [bytesOf "star-1"] false) (bytesOf "id-a") := by
  exact ⟨procedure_entry_points_sound, by decide, by decide, by decide⟩

/-- Claim C2, amended, witness: the reference `A` is in the extracted entry
set of the example store and satisfies the degree conditions. -/
theorem resolve_star_points_entry_degrees_witness :
    (PointReference.DesignatedPoint (bytesOf "id-a")).isAirportHeliport = false ∧
    specInDeg (legsFor dbSTAR [bytesOf "star-1"] false)
      (PointReference.DesignatedPoint (bytesOf "id-a")).name = 0 ∧
    0 < specOutDeg (legsFor dbSTAR [bytesOf "star-1"] false)
      (PointReference.DesignatedPoint (bytesOf "id-a")).name :=
  resolve_star_points_entry_degrees.1 dbSTAR [bytesOf "star-1"] false
    (.DesignatedPoint (bytesOf "id-a")) (by decide)

/-! ## Claim C5, amended part: sortedness of the procedure point lists -/

/-- Unfolding of the byte-lexicographic comparison on two cons cells. -/
theorem leStr_cons_iff (x y : Nat) (xs ys : Str) :
    leStr (x :: xs) (y :: ys) = true ↔ x < y ∨ (x = y ∧ leStr xs ys = true) := by
  simp only [leStr]
  by_cases hxy : x < y
  · simp [hxy]
  · by_cases hyx : y < x
    · simp [hxy, hyx]
      omega
    · have hxeq : x = y := by omega
      simp [hxy, hyx, hxeq]

/-- Byte-lexicographic comparison is total. -/
theorem leStr_total : ∀ a b : Str, leStr a b = true ∨ leStr b a = true := by
  intro a
  induction a with
  | nil => intro b; left; rfl
  | cons x xs ih =>
    intro b
    cases b with
    | nil => right; rfl
    | cons y ys =>
      rw [leStr_cons_iff, leStr_cons_iff]
      rcases Nat.lt_trichotomy x y with h | h | h
      · exact Or.inl (Or.inl h)
      · rcases ih ys with h' | h'
        · exact Or.inl (Or.inr ⟨h, h'⟩)
        · exact Or.inr (Or.inr ⟨h.symm, h'⟩)
      · exact Or.inr (Or.inl h)

/-- Byte-lexicographic comparison is transitive. -/
theorem leStr_trans : ∀ a b c : Str, leStr a b = true → leStr b c = true →
    leStr a c = true := by
  intro a
  induction a with
  | nil => intro b c _ _; rfl
  | cons x xs ih =>
    intro b c hab hbc
    cases b with
    | nil => simp [leStr] at hab
    | cons y ys =>
      cases c with
      | nil => simp [leStr] at hbc
      | cons z zs =>
        rw [leStr_cons_iff] at hab hbc ⊢
        rcases hab with h1 | ⟨h1, hab'⟩
        · rcases hbc with h2 | ⟨h2, _⟩
          · exact Or.inl (h1.trans h2)
          · exact Or.inl (h2 ▸ h1)
        · rcases hbc with h2 | ⟨h2, hbc'⟩
          · exact Or.inl (h1 ▸ h2)
          · exact Or.inr ⟨h1.trans h2, ih ys zs hab' hbc'⟩

/-- Elements of an insertion are the inserted element or an original one. -/
theorem mem_insertLe {α : Type} (le : α → α → Bool) (a x : α) :
    ∀ l : List α, x ∈ insertLe le a l → x = a ∨ x ∈ l := by
  intro l
  induction l with
  | nil =>
    intro h
    simp [insertLe] at h
    exact Or.inl h
  | cons b t ih =>
    intro h
    unfold insertLe at h
    by_cases hc : le a b = true
    · rw [if_pos hc] at h
      rcases List.mem_cons.1 h with rfl | h
      · exact Or.inl rfl
      · exact Or.inr h
    · rw [if_neg hc] at h
      rcases List.mem_cons.1 h with rfl | h
      · exact Or.inr (List.mem_cons_self x t)
      · rcases ih h with h | h
        · exact Or.inl h
        · exact Or.inr (List.mem_cons_of_mem b h)

/-- Insertion preserves sortedness (given totality and transitivity). -/
theorem pairwise_insertLe {α : Type} (le : α → α → Bool)
    (total : ∀ a b, le a b = true ∨ le b a = true)
    (trans : ∀ a b c, le a b = true → le b c = true → le a c = true)
    (a : α) : ∀ l : List α, l.Pairwise (fun x y => le x y = true) →
      (insertLe le a l).Pairwise (fun x y => le x y = true) := by
  intro l
  induction l with
  | nil => intro _; simp [insertLe]
  | cons b t ih =>
    intro hl
    rw [List.pairwise_cons] at hl
    obtain ⟨hb, ht⟩ := hl
    unfold insertLe
    by_cases hc : le a b = true
    · rw [if_pos hc, List.pairwise_cons]
      refine ⟨?_, List.pairwise_cons.2 ⟨hb, ht⟩⟩
      intro x hx
      rcases List.mem_cons.1 hx with rfl | hx
      · exact hc
      · exact trans a b x hc (hb x hx)
    · rw [if_neg hc, List.pairwise_cons]
      refine ⟨?_, ih ht⟩
      intro x hx
      rcases mem_insertLe le a x t hx with rfl | hx
      · rcases total x b with h | h
        · exact absurd h hc
        · exact h
      · exact hb x hx

/-- Insertion sort sorts (given totality and transitivity). -/
theorem pairwise_sortLe {α : Type} (le : α → α → Bool)
    (total : ∀ a b, le a b = true ∨ le b a = true)
    (trans : ∀ a b c, le a b = true → le b c = true → le a c = true) :
    ∀ l : List α, (sortLe le l).Pairwise (fun x y => le x y = true) := by
  intro l
  induction l with
  | nil => simp [sortLe]
  | cons a t ih => exact pairwise_insertLe le total trans a (sortLe le t) ih

/-- Consecutive deduplication yields a sublist. -/
theorem dedupConsecGo_sublist {α : Type} (eqv : α → α → Bool) :
    ∀ (l : List α) (a : α), (dedupConsecGo eqv a l).Sublist l := by
  intro l
  induction l with
  | nil => intro a; simp [dedupConsecGo]
  | cons b t ih =>
    intro a
    unfold dedupConsecGo
    by_cases hc : eqv a b = true
    · rw [if_pos hc]
      exact (ih a).cons b
    · rw [if_neg hc]
      exact (ih b).cons₂ b

/-- `Vec::dedup` yields a sublist. -/
theorem dedupConsec_sublist {α : Type} (eqv : α → α → Bool) (l : List α) :
    (dedupConsec eqv l).Sublist l := by
  cases l with
  | nil => simp [dedupConsec]
  | cons a t => exact (dedupConsecGo_sublist eqv t a).cons₂ a

/-- The sort-and-dedup epilogue of the procedure point resolvers is sorted by
the debug-rendering key. -/
theorem pairwise_sortDedupPoints (points : List ResolvedPoint) :
    (sortDedupPoints points).Pairwise
      (fun p q => leStr (debugKey p) (debugKey q) = true) :=
  List.Pairwise.sublist (dedupConsec_sublist rpEq _)
    (pairwise_sortLe _ (fun a b => leStr_total (debugKey a) (debugKey b))
      (fun a b c => leStr_trans (debugKey a) (debugKey b) (debugKey c)) points)

/-- Claim C5, amended: the procedure point resolvers do sort (and dedup) by a
deterministic key — the debug rendering — before returning; but the candidate
list of `ResolvedPoint::lookup` and the segments of `ResolvedRoute::from_db`
are returned in raw iteration order without sorting, so not every externally
visible list is iteration-order independent. -/
theorem procedure_point_lists_sorted (db : AirwayDatabase) (name : Str) :
    (resolve_star_points db name).Pairwise
      (fun p q => leStr (debugKey p) (debugKey q) = true) ∧
    (resolve_sid_points db name).Pairwise
      (fun p q => leStr (debugKey p) (debugKey q) = true) :=
  ⟨pairwise_sortDedupPoints _, pairwise_sortDedupPoints _⟩

end Thrust
